import Mathlib

/-!
Verification development for `scripts/deepnano2_caller.py` of deepnano-blitz.

The script is shallowly embedded: numpy float arithmetic is modelled exactly over `ℚ`,
machine integers over `ℤ`/`ℕ`, Python exceptions as `Except`/`Option`, and the external
decoder `deepnano2.Caller.call_raw_signal` (an opaque collaborator per the spec) as an
injected function `Caller`.  Writes to output streams are modelled as lists of emitted
lines tagged with the id of the stream written to.
-/

/-- Python exceptions relevant to the script: `KeyError`/`AttributeError` on a missing
read attribute, `ValueError`/`OverflowError` from `datetime` handling, and the
`NameError` raised when the unassigned module global `fout` is evaluated. -/
inductive PyError
  | missingAttr
  | valueError
  | nameErrorFout
deriving DecidableEq, Repr

instance {e a : Type} [DecidableEq e] [DecidableEq a] : DecidableEq (Except e a) :=
  fun x y =>
    match x, y with
    | Except.error e1, Except.error e2 =>
      if h : e1 = e2 then isTrue (by rw [h]) else isFalse (fun hc => h (Except.error.inj hc))
    | Except.error _, Except.ok _ => isFalse (fun hc => Except.noConfusion hc)
    | Except.ok _, Except.error _ => isFalse (fun hc => Except.noConfusion hc)
    | Except.ok a1, Except.ok a2 =>
      if h : a1 = a2 then isTrue (by rw [h]) else isFalse (fun hc => h (Except.ok.inj hc))

/-! ### SignalNormalizer (`med_mad`, `rescale_signal`) -/

/-- Insertion of one element into an ascending list; `sortAsc` below models the
ascending sort `np.median` performs internally. -/
def insertAsc (a : ℚ) : List ℚ → List ℚ
  | [] => [a]
  | b :: l => if a ≤ b then a :: b :: l else b :: insertAsc a l

/-- Ascending insertion sort (same resulting list as numpy's sort for our use:
we only read values at fixed positions of the sorted list). -/
def sortAsc : List ℚ → List ℚ
  | [] => []
  | a :: l => insertAsc a (sortAsc l)

/-- `np.median`: sort ascending; middle element for odd length, mean of the two middle
elements for even length. (For the empty list numpy yields NaN; the value here is junk
and never relied upon.) -/
def median (l : List ℚ) : ℚ :=
  let s := sortAsc l
  if l.length % 2 = 1 then s.getD (l.length / 2) 0
  else (s.getD (l.length / 2 - 1) 0 + s.getD (l.length / 2) 0) / 2

/-- `np.absolute` on one sample. -/
def absQ (q : ℚ) : ℚ := if q < 0 then -q else q

/-- `med_mad(x, factor=1.4826)` from the script: signal median and median absolute
deviation scaled by `factor`. -/
def med_mad (x : List ℚ) (factor : ℚ) : ℚ × ℚ :=
  let med := median x
  let mad := median (x.map (fun v => absQ (v - med))) * factor
  (med, mad)

/-- `rescale_signal(signal)` from the script: cast to float (exact in this model),
subtract the median, divide by the scaled MAD, element-wise.  The float32 rounding of
the Python implementation is modelled by exact rational arithmetic. -/
def rescale_signal (signal : List ℤ) : List ℚ :=
  let s : List ℚ := signal.map (fun (v : ℤ) => (v : ℚ))
  let p := med_mad s (14826 / 10000)
  s.map (fun v => (v - p.1) / p.2)

/-! ### `add_time_seconds` (datetime model)

`datetime.datetime` is modelled as a civil date-time; conversion between civil dates and
day counts follows the proleptic Gregorian calendar that Python's `datetime` uses.
`datetime.timedelta(seconds=x)` stores microseconds, rounding fractional microseconds
half-to-even (CPython's documented behaviour); `strftime('%Y-%m-%dT%H:%M:%SZ')` then
drops the sub-second part, i.e. truncates. -/

structure DateTime where
  year : Nat
  month : Nat
  day : Nat
  hour : Nat
  minute : Nat
  second : Nat
deriving DecidableEq, Repr

def isLeap (y : Nat) : Bool :=
  (y % 4 == 0 && y % 100 != 0) || y % 400 == 0

def daysInMonth (y m : Nat) : Nat :=
  if m = 2 then (if isLeap y then 29 else 28)
  else if m = 4 ∨ m = 6 ∨ m = 9 ∨ m = 11 then 30
  else 31

/-- Days since 1970-01-01 of a civil date (proleptic Gregorian, year ≥ 1). -/
def daysFromCivil (y m d : Nat) : ℤ :=
  let yy := if m ≤ 2 then y - 1 else y
  let era := yy / 400
  let yoe := yy - era * 400
  let mp := if 2 < m then m - 3 else m + 9
  let doy := (153 * mp + 2) / 5 + (d - 1)
  let doe := yoe * 365 + yoe / 4 - yoe / 100 + doy
  (era * 146097 + doe : ℤ) - 719468

/-- Seconds since 1970-01-01T00:00:00 of a civil date-time. -/
def toEpochSeconds (t : DateTime) : ℤ :=
  daysFromCivil t.year t.month t.day * 86400 +
    (t.hour * 3600 + t.minute * 60 + t.second : Nat)

/-- Civil date-time of an epoch-seconds value (inverse of `toEpochSeconds` on the
calendar's range; epochs before year 1 collapse to year 0, which the callers reject). -/
def fromEpochSeconds (t : ℤ) : DateTime :=
  let days := Int.fdiv t 86400
  let rem := (t - days * 86400).toNat
  let z := (days + 719468).toNat
  let era := z / 146097
  let doe := z - era * 146097
  let yoe := (doe - doe / 1460 + doe / 36524 - doe / 146096) / 365
  let y0 := yoe + era * 400
  let doy := doe - (365 * yoe + yoe / 4 - yoe / 100)
  let mp := (5 * doy + 2) / 153
  let d := doy - (153 * mp + 2) / 5 + 1
  let m := if mp < 10 then mp + 3 else mp - 9
  ⟨(if m ≤ 2 then y0 + 1 else y0), m, d, rem / 3600, rem % 3600 / 60, rem % 60⟩

def digitVal (c : Char) : Option Nat :=
  if '0' ≤ c ∧ c ≤ '9' then some (c.toNat - '0'.toNat) else none

def parse2 (a b : Char) : Option Nat := do
  let x ← digitVal a
  let y ← digitVal b
  some (10 * x + y)

def parse4 (a b c d : Char) : Option Nat := do
  let x ← parse2 a b
  let y ← parse2 c d
  some (100 * x + y)

/-- `datetime.datetime.strptime(s, '%Y-%m-%dT%H:%M:%SZ')`: fixed-layout parse with the
range checks `strptime`/the `datetime` constructor perform; `none` models the
`ValueError` raised on malformed input. -/
def parseTimestamp (s : String) : Option DateTime :=
  match s.toList with
  | [y1, y2, y3, y4, a1, o1, o2, a2, d1, d2, a3, h1, h2, a4, n1, n2, a5, e1, e2, a6] =>
    if a1 = '-' ∧ a2 = '-' ∧ a3 = 'T' ∧ a4 = ':' ∧ a5 = ':' ∧ a6 = 'Z' then
      match parse4 y1 y2 y3 y4, parse2 o1 o2, parse2 d1 d2,
          parse2 h1 h2, parse2 n1 n2, parse2 e1 e2 with
      | some y, some mo, some d, some h, some mi, some sec =>
        if 1 ≤ y ∧ 1 ≤ mo ∧ mo ≤ 12 ∧ 1 ≤ d ∧ d ≤ daysInMonth y mo ∧
            h ≤ 23 ∧ mi ≤ 59 ∧ sec ≤ 59
        then some ⟨y, mo, d, h, mi, sec⟩ else none
      | _, _, _, _, _, _ => none
    else none
  | _ => none

def pad2 (n : Nat) : String :=
  if n < 10 then "0" ++ toString n else toString n

def pad4 (n : Nat) : String :=
  if n < 10 then "000" ++ toString n
  else if n < 100 then "00" ++ toString n
  else if n < 1000 then "0" ++ toString n
  else toString n

/-- `strftime('%Y-%m-%dT%H:%M:%SZ')`: zero-padded fields, no timezone conversion. -/
def formatTimestamp (t : DateTime) : String :=
  pad4 t.year ++ "-" ++ pad2 t.month ++ "-" ++ pad2 t.day ++ "T" ++
    pad2 t.hour ++ ":" ++ pad2 t.minute ++ ":" ++ pad2 t.second ++ "Z"

/-- Round to the nearest integer, ties to even — CPython's rounding of fractional
microseconds in the `timedelta` constructor. -/
def roundHalfEven (q : ℚ) : ℤ :=
  if Int.fract q < 1 / 2 then ⌊q⌋
  else if 1 / 2 < Int.fract q then ⌊q⌋ + 1
  else if ⌊q⌋ % 2 = 0 then ⌊q⌋ else ⌊q⌋ + 1

/-- `add_time_seconds(base_time_str, delta_seconds)` from the script:
parse the base with `strptime`, add `timedelta(seconds=delta_seconds)` (microsecond
precision, fractional microseconds rounded half-to-even), format with `strftime` at
second resolution (sub-second part truncated).  `none` models the `ValueError` of a
failed parse or the `OverflowError` of leaving `datetime`'s year range 1..9999. -/
def add_time_seconds (base_time_str : String) (delta_seconds : ℚ) : Option String :=
  match parseTimestamp base_time_str with
  | none => none
  | some base =>
    let us : ℤ := toEpochSeconds base * 1000000 + roundHalfEven (delta_seconds * 1000000)
    let res := fromEpochSeconds (Int.fdiv us 1000000)
    if res.year < 1 ∨ 9999 < res.year then none
    else some (formatTimestamp res)

/-! ### Data model: raw reads, container files, call results -/

/-- One read of a container (fast5) file, as the script accesses it.  Metadata
attributes are `Option`s: `none` models the attribute being absent from the record
(Python raises `KeyError`/`AttributeError` on access).  `read_number` and
`start_time_offset` are read from the layout-variant-dependent location
(multi-read attrs vs single-read `read_info`); the model presents the unified value. -/
structure RawRead where
  read_id : String
  run_id : Option String
  read_number : Option ℤ
  start_time_offset : Option ℕ
  channel_number : Option String
  sampling_rate : Option ℚ
  exp_start_time : Option String
  raw_signal : List ℤ
deriving DecidableEq

/-- A container file as seen through `get_fast5_file`: either it opens and yields its
reads in native iteration order, or opening/structurally reading it raises `OSError`. -/
inductive Fast5File
  | ok (reads : List RawRead)
  | ioError
deriving DecidableEq

/-- The per-read result tuple appended to `out` by `call_file`. -/
structure CallResult where
  read_id : String
  run_id : String
  read_num : ℤ
  channel_num : String
  start_time : String
  basecall : String
  qual : String
deriving DecidableEq, Repr

/-- The external decoder `caller.call_raw_signal`: normalized signal in,
(basecall, quality) out.  Opaque collaborator, injected. -/
def Caller : Type := List ℚ → String × String

/-- Attribute access on a read record: `none` raises `KeyError`. -/
def getAttr {α : Type} (o : Option α) : Except PyError α :=
  match o with
  | some v => Except.ok v
  | none => Except.error PyError.missingAttr

/-- `add_time_seconds` as the script calls it, with `datetime` failures raised. -/
def strptimeE (s : String) (delta : ℚ) : Except PyError String :=
  match add_time_seconds s delta with
  | some t => Except.ok t
  | none => Except.error PyError.valueError

/-- The per-read body of `call_file`'s loop: extract metadata (in source order),
reconstruct `start_time`, rescale the signal, call the decoder, build the tuple.
Any raised exception propagates. -/
def processRead (caller : Caller) (read : RawRead) : Except PyError CallResult := do
  let run_id ← getAttr read.run_id
  let read_number ← getAttr read.read_number
  let start_offset ← getAttr read.start_time_offset
  let channel_number ← getAttr read.channel_number
  let sampling_rate ← getAttr read.sampling_rate
  let exp_start_time ← getAttr read.exp_start_time
  let start_time ← strptimeE exp_start_time ((start_offset : ℚ) / sampling_rate)
  let signal := rescale_signal read.raw_signal
  let bq := caller signal
  Except.ok ⟨read.read_id, run_id, read_number, channel_number, start_time, bq.1, bq.2⟩

/-- The read loop of `call_file`: one result appended per read, in iteration order; an
exception raised while processing a read propagates (the partial `out` is discarded). -/
def callReads (caller : Caller) : List RawRead → Except PyError (List CallResult)
  | [] => Except.ok []
  | r :: rest =>
    match processRead caller r with
    | Except.error e => Except.error e
    | Except.ok c =>
      match callReads caller rest with
      | Except.error e => Except.error e
      | Except.ok cs => Except.ok (c :: cs)

/-- `call_file(filename)` from the script: `except OSError: return []` recovers the
whole-file I/O failure; everything else propagates. -/
def call_file (caller : Caller) (f : Fast5File) : Except PyError (List CallResult) :=
  match f with
  | Fast5File.ioError => Except.ok []
  | Fast5File.ok reads => callReads caller reads

/-! ### OutputWriter (`write_output`) -/

/-- `str` of a Python int under `%d`. -/
def pctD (i : ℤ) : String := toString i

/-- `write_output(read_id, run_id, read_num, channel_num, start_time, basecall, quals,
output_file, format)` from the script.  The returned list holds the emitted lines,
each tagged with the id of the stream it is printed to.  Faithful to the source, every
`print` targets the module global `fout` (passed here as the trailing argument), and
the `output_file` parameter is never read. -/
def write_output (read_id run_id : String) (read_num : ℤ)
    (channel_num start_time basecall quals : String)
    (output_file : ℕ) (format : String) (fout : ℕ) : List (ℕ × String) :=
  if basecall.length = 0 then []
  else if format = "fasta" then
    [(fout, ">" ++ read_id), (fout, basecall)]
  else
    [(fout, "@" ++ read_id ++ " runid=" ++ run_id ++ " read=" ++ pctD read_num ++
        " ch=" ++ channel_num ++ " start_time=" ++ start_time),
      (fout, basecall), (fout, "+"), (fout, quals)]

/-! ### Orchestrator (`__main__`) -/

/-- The CLI arguments consumed by the output-writing part of `__main__`. -/
structure Args where
  output : String
  threads : Nat
  output_format : String
  gzip_output : Bool
deriving DecidableEq

/-- Characters before the first occurrence of `c` (Python `s.split(c)[0]`). -/
def takeUntil (c : Char) : List Char → List Char
  | [] => []
  | a :: l => if a = c then [] else a :: takeUntil c l

/-- `head, tail = os.path.split(fn); fname = tail.split(".")[0]` from the script. -/
def stemOf (fn : String) : String :=
  let tail := (fn.toList.reverse.takeWhile (fun a => a != '/')).reverse
  String.mk (takeUntil '.' tail)

/-- `os.path.join(args.output, fname + "." + args.output_format)`. -/
def outPath (outputDir fn fmt : String) : String :=
  outputDir ++ "/" ++ stemOf fn ++ "." ++ fmt

/-- One output stream as opened by the sequential branch: `open(path, "w")` — a plain,
uncompressed text stream (`gzip.open` is never called, so `gzipped` is `false`). -/
structure OutStream where
  path : String
  gzipped : Bool
  lines : List String
deriving DecidableEq

/-- The lines the sequential branch prints to the current file's stream: for each
result in order, `write_output(..., fout, args.output_format)` with the module global
`fout` bound to that stream. -/
def linesFor (fmt : String) (results : List CallResult) : List String :=
  match results with
  | [] => []
  | r :: rest =>
    (write_output r.read_id r.run_id r.read_num r.channel_num r.start_time
        r.basecall r.qual 0 fmt 0).map Prod.snd ++ linesFor fmt rest

/-- The progress lines `print("done %d/%d" % (done, len(files)), read_id, ...)` printed
to stderr: one per processed read (the wall-clock part is not modelled). -/
def progressFor (nfiles : Nat) : Nat → List CallResult → List (Nat × Nat × String)
  | _, [] => []
  | done, r :: rest => (done + 1, nfiles, r.read_id) :: progressFor nfiles (done + 1) rest

/-- Outcome of a sequential run: the streams opened (in order), and the progress lines
printed to stderr. -/
structure SeqOutcome where
  streams : List OutStream
  progress : List (Nat × Nat × String)
deriving DecidableEq

/-- The sequential branch (`args.threads <= 1`) of `__main__`: per input file, open
`output/<stem>.<format>`, write each of `call_file`'s results via `write_output`,
count and report progress after every result, close the stream.  A raised exception
(e.g. a missing read attribute) aborts the whole run. -/
def seqRunAux (caller : Caller) (outputDir fmt : String) (nfiles : Nat) :
    Nat → List (String × Fast5File) → Except PyError SeqOutcome
  | _, [] => Except.ok ⟨[], []⟩
  | done, (fn, f) :: rest =>
    match call_file caller f with
    | Except.error e => Except.error e
    | Except.ok results =>
      match seqRunAux caller outputDir fmt nfiles (done + results.length) rest with
      | Except.error e => Except.error e
      | Except.ok o =>
        Except.ok ⟨⟨outPath outputDir fn fmt, false, linesFor fmt results⟩ :: o.streams,
          progressFor nfiles done results ++ o.progress⟩

/-- The sequential branch reads only `args.output` and `args.output_format` from the
parsed arguments (in particular it never reads `args.gzip_output`). -/
def seqRun (caller : Caller) (args : Args) (files : List (String × Fast5File)) :
    Except PyError SeqOutcome :=
  seqRunAux caller args.output args.output_format files.length 0 files

/-- The flattened list of all `CallResult`s a sequential run writes, file by file. -/
def seqResults (caller : Caller) : List (String × Fast5File) →
    Except PyError (List CallResult)
  | [] => Except.ok []
  | (_, f) :: rest =>
    match call_file caller f with
    | Except.error e => Except.error e
    | Except.ok a =>
      match seqResults caller rest with
      | Except.error e => Except.error e
      | Except.ok b => Except.ok (a ++ b)

/-- The parallel branch (`args.threads > 1`) of `__main__`: `pool.imap_unordered`
delivers each file's result list in completion order (modelled by the order of the
given list).  On this path the module global `fout` is never assigned and no output
stream is ever opened, so the first evaluation of the name `fout` — as an argument of
`write_output` for the first delivered result, or in the trailing `fout.close()` when
every delivered list is empty — raises `NameError`.  A worker's exception (e.g. a
missing attribute) is re-raised at the iteration that would deliver it. -/
def parRun (caller : Caller) : List Fast5File → Except PyError Unit
  | [] => Except.error PyError.nameErrorFout
  | f :: rest =>
    match call_file caller f with
    | Except.error e => Except.error e
    | Except.ok [] => parRun caller rest
    | Except.ok (_ :: _) => Except.error PyError.nameErrorFout

/-! ### Demo inputs used by witnesses -/

/-- A well-formed read: every attribute present, parseable experiment start time. -/
def demoRead : RawRead :=
  ⟨"r1", some "run0", some 7, some 4000, some "3", some 4000,
    some "2021-01-01T00:00:00Z", [2, 4, 10]⟩

/-- A read whose record lacks the required `run_id` attribute. -/
def badRead : RawRead :=
  ⟨"r2", none, some 8, some 4000, some "3", some 4000,
    some "2021-01-01T00:00:00Z", [2, 4, 10]⟩

/-- A decoder stub returning a fixed non-empty basecall. -/
def constCaller : Caller := fun _ => ("ACGT", "!!!!")

/-- A decoder stub returning the empty result (undecodable input). -/
def emptyCaller : Caller := fun _ => ("", "")

/-- Whether `processRead` can run a read to completion: every required attribute
present and the timestamp arithmetic in `datetime`'s range. -/
def wellFormed (r : RawRead) : Bool :=
  r.run_id.isSome && r.read_number.isSome && r.start_time_offset.isSome &&
    r.channel_number.isSome && r.sampling_rate.isSome && r.exp_start_time.isSome &&
    (add_time_seconds (r.exp_start_time.getD "")
      ((r.start_time_offset.getD 0 : ℚ) / r.sampling_rate.getD 0)).isSome

set_option maxRecDepth 100000

/-! ### Helper lemmas -/

lemma string_length_eq_zero_iff (s : String) : s.length = 0 ↔ s = "" := by
  cases s with
  | mk data =>
    constructor
    · intro h
      have : data = [] := List.length_eq_zero.mp h
      simp [this]
    · intro h
      have : data = [] := congrArg String.data h
      simp [String.length, this]

/-- C7: `write_output` emits zero lines for an empty basecall (in both formats);
for a non-empty basecall it emits exactly the two FASTA lines for format `fasta`
and exactly the four FASTQ lines (header with `runid=`/`read=`/`ch=`/`start_time=`
fields, basecall, a literal `+`, the quality string) for format `fastq`,
with no line wrapping. -/
theorem c7_write_output_lines (read_id run_id : String) (read_num : ℤ)
    (channel_num start_time basecall quals : String) (output_file fout : ℕ) :
    (∀ format, basecall = "" →
      write_output read_id run_id read_num channel_num start_time basecall quals
        output_file format fout = []) ∧
    (basecall ≠ "" →
      write_output read_id run_id read_num channel_num start_time basecall quals
        output_file "fasta" fout = [(fout, ">" ++ read_id), (fout, basecall)]) ∧
    (basecall ≠ "" →
      write_output read_id run_id read_num channel_num start_time basecall quals
        output_file "fastq" fout =
        [(fout, "@" ++ read_id ++ " runid=" ++ run_id ++ " read=" ++ toString read_num ++
            " ch=" ++ channel_num ++ " start_time=" ++ start_time),
          (fout, basecall), (fout, "+"), (fout, quals)]) := by
  refine ⟨?_, ?_, ?_⟩
  · intro format h
    subst h
    simp [write_output]
  · intro h
    rw [write_output, if_neg (fun hc => h ((string_length_eq_zero_iff basecall).mp hc)),
      if_pos rfl]
  · intro h
    rw [write_output, if_neg (fun hc => h ((string_length_eq_zero_iff basecall).mp hc)),
      if_neg (by decide)]
    rfl

theorem c7_witness :
    ("ACGT" : String) ≠ "" ∧
    write_output "r1" "run0" 7 "3" "2021-01-01T00:00:01Z" "ACGT" "!!!!" 0 "fastq" 0 =
      [(0, "@r1 runid=run0 read=7 ch=3 start_time=2021-01-01T00:00:01Z"),
        (0, "ACGT"), (0, "+"), (0, "!!!!")] :=
  ⟨by decide,
    ((c7_write_output_lines "r1" "run0" 7 "3" "2021-01-01T00:00:01Z" "ACGT" "!!!!" 0
      0).2.2 (by decide)).trans (by decide)⟩

/-- C10: `write_output`'s behaviour is independent of its `output_file` parameter —
the parameter is never read — and every line it emits goes to the stream the module
global `fout` designates. -/
theorem c10_output_file_param_ignored (read_id run_id : String) (read_num : ℤ)
    (channel_num start_time basecall quals : String) (s1 s2 : ℕ) (format : String)
    (fout : ℕ) :
    write_output read_id run_id read_num channel_num start_time basecall quals
        s1 format fout =
      write_output read_id run_id read_num channel_num start_time basecall quals
        s2 format fout ∧
    (write_output read_id run_id read_num channel_num start_time basecall quals
        s1 format fout).map Prod.fst =
      List.replicate (write_output read_id run_id read_num channel_num start_time
        basecall quals s1 format fout).length fout := by
  refine ⟨rfl, ?_⟩
  rw [write_output]
  split
  · rfl
  · split <;> rfl

/-- C4: `rescale_signal` returns a sequence of the same length as the raw signal,
element-wise equal to `(raw - med) / mad` with `med = median(raw)` and
`mad = median(|raw - med|) * 1.4826`; as a function of its input it is pure and
deterministic by construction.  (The float32 arithmetic of the Python implementation
is modelled by exact rationals; the constant 1.4826 by `14826 / 10000`.) -/
theorem c4_rescale_signal_formula (raw : List ℤ) :
    (rescale_signal raw).length = raw.length ∧
    ∀ i, i < raw.length →
      (rescale_signal raw).getD i 0 =
        ((raw.getD i 0 : ℚ) - median (raw.map (fun (v : ℤ) => (v : ℚ)))) /
          (median ((raw.map (fun (v : ℤ) => (v : ℚ))).map
              (fun v => absQ (v - median (raw.map (fun (v : ℤ) => (v : ℚ)))))) *
            (14826 / 10000)) := by
  constructor
  · simp only [rescale_signal, med_mad, List.length_map]
  · intro i hi
    have hsome : raw[i]? = some raw[i] := List.getElem?_eq_getElem hi
    simp only [rescale_signal, med_mad, List.getD_eq_getElem?_getD, List.getElem?_map,
      hsome, Option.map_some, Option.map_some', Option.getD_some]

theorem c4_witness :
    (rescale_signal [2, 4, 10]).length = 3 ∧
    (rescale_signal [2, 4, 10]).getD 0 0 = -2 / (2 * (14826 / 10000)) :=
  ⟨(c4_rescale_signal_formula [2, 4, 10]).1,
    ((c4_rescale_signal_formula [2, 4, 10]).2 0 (by decide)).trans
      (by norm_num [median, sortAsc, insertAsc, absQ])⟩

@[simp] lemma except_bind_ok {α β : Type} (a : α) (f : α → Except PyError β) :
    (Except.ok a >>= f) = f a := rfl

@[simp] lemma except_bind_error {α β : Type} (e : PyError) (f : α → Except PyError β) :
    ((Except.error e : Except PyError α) >>= f) = Except.error e := rfl

lemma processRead_run_id_none (caller : Caller) (r : RawRead) (h : r.run_id = none) :
    processRead caller r = Except.error PyError.missingAttr := by
  simp [processRead, getAttr, h]

lemma callReads_error_of_run_id_none (caller : Caller) (reads : List RawRead)
    (r : RawRead) (hmem : r ∈ reads) (h : r.run_id = none) :
    ∃ e, callReads caller reads = Except.error e := by
  induction reads with
  | nil => cases hmem
  | cons x xs ih =>
    rcases List.mem_cons.mp hmem with hx | hmem2
    · subst hx
      exact ⟨PyError.missingAttr, by simp [callReads, processRead_run_id_none caller r h]⟩
    · cases hx : processRead caller x with
      | error e => exact ⟨e, by simp [callReads, hx]⟩
      | ok c =>
        obtain ⟨e, he⟩ := ih hmem2
        exact ⟨e, by simp [callReads, hx, he]⟩

/-- C2 (amended): a read whose record lacks a required metadata attribute does NOT
abort only that read — the exception propagates out of `call_file`, aborting the whole
enclosing file's processing (the remaining reads of the file are not processed, the
file yields no results) and, in the sequential driver, the whole run. -/
theorem c2_missing_attr_aborts_file (caller : Caller) (reads : List RawRead)
    (r : RawRead) (hmem : r ∈ reads) (h : r.run_id = none) :
    (∃ e, call_file caller (Fast5File.ok reads) = Except.error e) ∧
    ∀ (outputDir fmt : String) (nfiles done : Nat) (name : String)
      (rest : List (String × Fast5File)),
      ∃ e, seqRunAux caller outputDir fmt nfiles done
        ((name, Fast5File.ok reads) :: rest) = Except.error e := by
  obtain ⟨e, he⟩ := callReads_error_of_run_id_none caller reads r hmem h
  refine ⟨⟨e, he⟩, ?_⟩
  intro outputDir fmt nfiles done name rest
  exact ⟨e, by simp [seqRunAux, call_file, he]⟩

theorem c2_witness :
    badRead ∈ [badRead, demoRead] ∧
    (∃ e, call_file constCaller (Fast5File.ok [badRead, demoRead]) = Except.error e) :=
  ⟨List.mem_cons_self _ _,
    (c2_missing_attr_aborts_file constCaller [badRead, demoRead] badRead
      (List.mem_cons_self _ _) rfl).1⟩

/-- C2 counterexample: with a file whose first read lacks `run_id`, the sequential run
aborts with the propagated error — the file's remaining (well-formed) read is never
processed and the run does not continue, contradicting the claimed per-read isolation. -/
theorem c2_counterexample :
    seqRun constCaller ⟨"out", 1, "fasta", false⟩
        [("f.fast5", Fast5File.ok [badRead, demoRead])] =
      Except.error PyError.missingAttr := by
  with_unfolding_all decide

/-- C1: in parallel mode the orchestrator never opens a per-file output stream at all:
the module global `fout` is unassigned on that path, so every run of the parallel
branch terminates in a `NameError` instead of writing any read's record — no
`CallResult` is ever written to any stream.  (The claim describes the intended
behaviour; the code cannot perform it.) -/
theorem c1_parallel_mode_never_writes (caller : Caller) (files : List Fast5File) :
    (∃ e, parRun caller files = Except.error e) ∧
    parRun constCaller [Fast5File.ok [demoRead]] = Except.error PyError.nameErrorFout := by
  constructor
  · induction files with
    | nil => exact ⟨PyError.nameErrorFout, rfl⟩
    | cons f rest ih =>
      cases hcf : call_file caller f with
      | error e => exact ⟨e, by simp [parRun, hcf]⟩
      | ok results =>
        cases results with
        | nil =>
          obtain ⟨e, he⟩ := ih
          exact ⟨e, by simp [parRun, hcf, he]⟩
        | cons c cs => exact ⟨PyError.nameErrorFout, by simp [parRun, hcf]⟩
  · with_unfolding_all decide

lemma seqRunAux_streams_ungzipped (caller : Caller) (outputDir fmt : String)
    (nfiles : Nat) (files : List (String × Fast5File)) :
    ∀ (done : Nat) (o : SeqOutcome),
      seqRunAux caller outputDir fmt nfiles done files = Except.ok o →
      ∀ s ∈ o.streams, s.gzipped = false := by
  induction files with
  | nil =>
    intro done o h s hs
    simp [seqRunAux] at h
    subst h
    cases hs
  | cons p rest ih =>
    obtain ⟨fn, f⟩ := p
    intro done o h s hs
    cases hcf : call_file caller f with
    | error e => simp [seqRunAux, hcf] at h
    | ok results =>
      cases hrec : seqRunAux caller outputDir fmt nfiles (done + results.length) rest with
      | error e => simp [seqRunAux, hcf, hrec] at h
      | ok o2 =>
        simp [seqRunAux, hcf, hrec] at h
        subst h
        rcases List.mem_cons.mp hs with hs1 | hs2
        · subst hs1; rfl
        · exact ih (done + results.length) o2 hrec s hs2

/-- C3: the `--gzip-output` flag has no effect whatsoever — the sequential branch's
behaviour is identical for both flag values, and every output stream it opens is a
plain uncompressed `open(path, "w")` stream.  (The flag's own help text promises gzip
compression; the code never reads `args.gzip_output`.) -/
theorem c3_gzip_flag_has_no_effect :
    (∀ (caller : Caller) (out : String) (thr : Nat) (fmt : String) (b1 b2 : Bool)
        (files : List (String × Fast5File)),
      seqRun caller ⟨out, thr, fmt, b1⟩ files = seqRun caller ⟨out, thr, fmt, b2⟩ files) ∧
    (∀ (caller : Caller) (args : Args) (files : List (String × Fast5File))
        (o : SeqOutcome),
      seqRun caller args files = Except.ok o → ∀ s ∈ o.streams, s.gzipped = false) := by
  refine ⟨fun _ _ _ _ _ _ _ => rfl, ?_⟩
  intro caller args files o h s hs
  exact seqRunAux_streams_ungzipped caller args.output args.output_format files.length
    files 0 o h s hs

theorem c3_witness :
    seqRun constCaller ⟨"out", 1, "fasta", true⟩ [("f.fast5", Fast5File.ok [demoRead])] =
      seqRun constCaller ⟨"out", 1, "fasta", false⟩
        [("f.fast5", Fast5File.ok [demoRead])] ∧
    OutStream.gzipped ⟨"out/f.fasta", false, [">r1", "ACGT"]⟩ = false := by
  refine ⟨c3_gzip_flag_has_no_effect.1 constCaller "out" 1 "fasta" true false _, ?_⟩
  exact c3_gzip_flag_has_no_effect.2 constCaller ⟨"out", 1, "fasta", true⟩
    [("f.fast5", Fast5File.ok [demoRead])]
    ⟨[⟨"out/f.fasta", false, [">r1", "ACGT"]⟩], [(1, 1, "r1")]⟩
    (by with_unfolding_all decide) _ (by simp)

/-- C6: a whole-file I/O failure is isolated: `call_file` returns the empty result
list instead of propagating, and in the sequential driver the failed file contributes
an output stream with no data lines while the remaining files are processed exactly
as they would have been, with identical progress output — the run continues. -/
theorem c6_unreadable_file_isolated :
    (∀ caller : Caller, call_file caller Fast5File.ioError = Except.ok []) ∧
    ∀ (caller : Caller) (outputDir fmt : String) (nfiles done : Nat) (name : String)
      (rest : List (String × Fast5File)) (o : SeqOutcome),
      seqRunAux caller outputDir fmt nfiles done rest = Except.ok o →
      seqRunAux caller outputDir fmt nfiles done ((name, Fast5File.ioError) :: rest) =
        Except.ok ⟨⟨outPath outputDir name fmt, false, []⟩ :: o.streams, o.progress⟩ := by
  refine ⟨fun _ => rfl, ?_⟩
  intro caller outputDir fmt nfiles done name rest o h
  simp [seqRunAux, call_file, h, linesFor, progressFor]

theorem c6_witness :
    seqRunAux constCaller "out" "fasta" 2 0
        [("f.fast5", Fast5File.ioError), ("g.fast5", Fast5File.ok [demoRead])] =
      Except.ok ⟨[⟨"out/f.fasta", false, []⟩, ⟨"out/g.fasta", false, [">r1", "ACGT"]⟩],
        [(1, 2, "r1")]⟩ := by
  have h : seqRunAux constCaller "out" "fasta" 2 0 [("g.fast5", Fast5File.ok [demoRead])] =
      Except.ok ⟨[⟨"out/g.fasta", false, [">r1", "ACGT"]⟩], [(1, 2, "r1")]⟩ := by
    with_unfolding_all decide
  exact c6_unreadable_file_isolated.2 constCaller "out" "fasta" 2 0 "f.fast5" _ _ h

lemma processRead_wf (caller : Caller) (r : RawRead) (h : wellFormed r = true) :
    ∃ c, processRead caller r = Except.ok c ∧ c.read_id = r.read_id := by
  rw [wellFormed] at h
  simp only [Bool.and_eq_true, Option.isSome_iff_exists] at h
  obtain ⟨⟨⟨⟨⟨⟨⟨ri, hri⟩, ⟨rn, hrn⟩⟩, ⟨so, hso⟩⟩, ⟨cn, hcn⟩⟩, ⟨sr, hsr⟩⟩, ⟨es, hes⟩⟩,
    hts⟩ := h
  rw [hso, hsr, hes] at hts
  simp only [Option.getD_some, Option.isSome_iff_exists] at hts
  obtain ⟨t, ht⟩ := hts
  refine ⟨⟨r.read_id, ri, rn, cn, t, (caller (rescale_signal r.raw_signal)).1,
    (caller (rescale_signal r.raw_signal)).2⟩, ?_, rfl⟩
  simp [processRead, getAttr, hri, hrn, hso, hcn, hsr, hes, strptimeE, ht]

lemma callReads_wf (caller : Caller) (reads : List RawRead)
    (h : ∀ r ∈ reads, wellFormed r = true) :
    ∃ l, callReads caller reads = Except.ok l ∧ l.length = reads.length ∧
      ∀ i (hi : i < l.length) (hi2 : i < reads.length),
        (l.get ⟨i, hi⟩).read_id = (reads.get ⟨i, hi2⟩).read_id := by
  induction reads with
  | nil => exact ⟨[], rfl, rfl, fun i hi _ => absurd hi (by simp)⟩
  | cons r rest ih =>
    obtain ⟨c, hc, hid⟩ := processRead_wf caller r (h r (List.mem_cons_self r rest))
    obtain ⟨l, hl, hlen, hord⟩ := ih (fun x hx => h x (List.mem_cons_of_mem r hx))
    refine ⟨c :: l, by simp [callReads, hc, hl], by simp [hlen], ?_⟩
    intro i hi hi2
    cases i with
    | zero => simpa using hid
    | succ n =>
      have hi' : n < l.length := by simpa [List.length_cons] using hi
      have hi2' : n < rest.length := by simpa [List.length_cons] using hi2
      simpa using hord n hi' hi2'

/-- C8: for a readable container file all of whose reads carry their required
metadata, `call_file` returns exactly one `CallResult` per read — including reads the
decoder maps to an empty basecall, before any empty-basecall filtering — in the file's
native read-iteration order (position `i` of the output corresponds to read `i`). -/
theorem c8_one_result_per_read_in_order (caller : Caller) (reads : List RawRead)
    (h : ∀ r ∈ reads, wellFormed r = true) :
    ∃ l, call_file caller (Fast5File.ok reads) = Except.ok l ∧
      l.length = reads.length ∧
      ∀ i (hi : i < l.length) (hi2 : i < reads.length),
        (l.get ⟨i, hi⟩).read_id = (reads.get ⟨i, hi2⟩).read_id :=
  callReads_wf caller reads h

theorem c8_witness :
    (∀ r ∈ [demoRead], wellFormed r = true) ∧
    ∃ l, call_file constCaller (Fast5File.ok [demoRead]) = Except.ok l ∧
      l.length = [demoRead].length ∧
      ∀ i (hi : i < l.length) (hi2 : i < [demoRead].length),
        (l.get ⟨i, hi⟩).read_id = ([demoRead].get ⟨i, hi2⟩).read_id := by
  have h : ∀ r ∈ [demoRead], wellFormed r = true := by
    intro r hr
    rw [List.mem_singleton] at hr
    subst hr
    with_unfolding_all decide
  exact ⟨h, c8_one_result_per_read_in_order constCaller [demoRead] h⟩

lemma progressFor_append (n : Nat) (a b : List CallResult) :
    ∀ d, progressFor n d (a ++ b) = progressFor n d a ++ progressFor n (d + a.length) b := by
  induction a with
  | nil => intro d; simp [progressFor]
  | cons x xs ih =>
    intro d
    simp only [List.cons_append, progressFor, List.append_eq, List.length_cons]
    rw [ih (d + 1), show d + (xs.length + 1) = d + 1 + xs.length from by omega]

lemma seqRunAux_progress (caller : Caller) (outputDir fmt : String) (n : Nat)
    (files : List (String × Fast5File)) :
    ∀ (done : Nat) (o : SeqOutcome) (rs : List CallResult),
      seqRunAux caller outputDir fmt n done files = Except.ok o →
      seqResults caller files = Except.ok rs →
      o.progress = progressFor n done rs := by
  induction files with
  | nil =>
    intro done o rs h1 h2
    simp [seqRunAux] at h1
    simp [seqResults] at h2
    subst h1
    subst h2
    simp [progressFor]
  | cons p rest ih =>
    obtain ⟨fn, f⟩ := p
    intro done o rs h1 h2
    cases hcf : call_file caller f with
    | error e =>
      simp [seqRunAux, hcf] at h1
    | ok results =>
      cases hrec : seqRunAux caller outputDir fmt n (done + results.length) rest with
      | error e => simp [seqRunAux, hcf, hrec] at h1
      | ok o2 =>
        cases hsr : seqResults caller rest with
        | error e => simp [seqResults, hcf, hsr] at h2
        | ok rs2 =>
          simp only [seqRunAux, hcf, hrec] at h1
          simp only [seqResults, hcf, hsr] at h2
          rw [Except.ok.injEq] at h1 h2
          subst h1
          subst h2
          simp only [progressFor_append n results rs2 done]
          rw [ih (done + results.length) o2 rs2 hrec hsr]

/-- C9 (amended): the sequential driver emits one progress line (with the
monotonically increasing completed-count and the read's identifier) for EVERY
`CallResult` delivered by the processors, in order — including reads whose basecall is
empty and which therefore produced no output rows. -/
theorem c9_progress_for_every_read (caller : Caller) (args : Args)
    (files : List (String × Fast5File)) (o : SeqOutcome) (rs : List CallResult)
    (h1 : seqRun caller args files = Except.ok o)
    (h2 : seqResults caller files = Except.ok rs) :
    o.progress = progressFor files.length 0 rs :=
  seqRunAux_progress caller args.output args.output_format files.length files 0 o rs h1 h2

theorem c9_witness :
    SeqOutcome.progress ⟨[⟨"out/f.fasta", false, []⟩], [(1, 1, "r1")]⟩ =
      progressFor 1 0 [⟨"r1", "run0", 7, "3", "2021-01-01T00:00:01Z", "", ""⟩] :=
  c9_progress_for_every_read emptyCaller ⟨"out", 1, "fasta", false⟩
    [("f.fast5", Fast5File.ok [demoRead])] _ _ (by with_unfolding_all decide)
    (by with_unfolding_all decide)

/-- C9 counterexample: a run over one file whose only read decodes to the empty
basecall writes zero output lines for it, yet still emits the progress line
`(1, 1, "r1")` — a progress line for a read that was not successfully decoded,
contradicting the claim that progress reports only successfully decoded reads. -/
theorem c9_counterexample :
    seqRun emptyCaller ⟨"out", 1, "fasta", false⟩ [("f.fast5", Fast5File.ok [demoRead])] =
      Except.ok ⟨[⟨"out/f.fasta", false, []⟩], [(1, 1, "r1")]⟩ := by
  with_unfolding_all decide

lemma le_roundHalfEven (q : ℚ) : ⌊q⌋ ≤ roundHalfEven q := by
  rw [roundHalfEven]
  split_ifs <;> omega

lemma roundHalfEven_le (q : ℚ) : (roundHalfEven q : ℚ) ≤ q + 1 / 2 := by
  have hsf : q - Int.fract q = (⌊q⌋ : ℚ) := Int.self_sub_fract q
  rw [roundHalfEven]
  split_ifs with h1 h2 h3
  · push_cast
    linarith [Int.floor_le q]
  · push_cast
    linarith
  · push_cast
    linarith [Int.floor_le q]
  · have htie : Int.fract q = 1 / 2 := le_antisymm (not_lt.mp h2) (not_lt.mp h1)
    push_cast
    linarith

lemma fdiv_of_between (S k u : ℤ) (h1 : k * 1000000 ≤ u) (h2 : u < (k + 1) * 1000000) :
    Int.fdiv (S * 1000000 + u) 1000000 = S + k := by
  have hq := Int.fdiv_add_fmod (S * 1000000 + u) 1000000
  have hr1 : 0 ≤ (S * 1000000 + u).fmod 1000000 := Int.fmod_nonneg' _ (by norm_num)
  have hr2 : (S * 1000000 + u).fmod 1000000 < 1000000 := Int.fmod_lt_of_pos _ (by norm_num)
  omega

/-- The microsecond arithmetic of `datetime` truncates: provided the fractional part of
`delta` is below the half-microsecond rounding edge, adding `timedelta(seconds=delta)`
and reading the result at second resolution adds exactly `⌊delta⌋` seconds. -/
lemma trunc_seconds (S : ℤ) (delta : ℚ) (h : Int.fract delta < 1 - 1 / 2000000) :
    Int.fdiv (S * 1000000 + roundHalfEven (delta * 1000000)) 1000000 = S + ⌊delta⌋ := by
  apply fdiv_of_between
  · refine le_trans ?_ (le_roundHalfEven (delta * 1000000))
    rw [Int.le_floor]
    push_cast
    have := Int.floor_le delta
    nlinarith
  · have hle : (roundHalfEven (delta * 1000000) : ℚ) ≤ delta * 1000000 + 1 / 2 :=
      roundHalfEven_le _
    have hsf : delta - Int.fract delta = (⌊delta⌋ : ℚ) := Int.self_sub_fract delta
    have hlt : (roundHalfEven (delta * 1000000) : ℚ) < ((⌊delta⌋ + 1) * 1000000 : ℤ) := by
      push_cast
      nlinarith
    exact_mod_cast hlt

/-- C5: the reconstructed `start_time` equals the experiment start time plus
`start_offset / sampling_rate` seconds with the fractional second truncated, rendered
by `strftime('%Y-%m-%dT%H:%M:%SZ')` with no timezone conversion — stated for every
parseable base time, every delta below the half-microsecond rounding edge, and a
result inside `datetime`'s year range; in particular the spec's example
`"2021-01-01T00:00:00Z" + 4000 / 4000.0` yields `"2021-01-01T00:00:01Z"`. -/
theorem c5_add_time_seconds_spec :
    (∀ (base : String) (dt : DateTime) (delta : ℚ),
      parseTimestamp base = some dt →
      Int.fract delta < 1 - 1 / 2000000 →
      1 ≤ (fromEpochSeconds (toEpochSeconds dt + ⌊delta⌋)).year →
      (fromEpochSeconds (toEpochSeconds dt + ⌊delta⌋)).year ≤ 9999 →
      add_time_seconds base delta =
        some (formatTimestamp (fromEpochSeconds (toEpochSeconds dt + ⌊delta⌋)))) ∧
    add_time_seconds "2021-01-01T00:00:00Z" ((4000 : ℚ) / 4000) =
      some "2021-01-01T00:00:01Z" := by
  constructor
  · intro base dt delta hparse hfr hy1 hy2
    simp only [add_time_seconds, hparse]
    rw [trunc_seconds (toEpochSeconds dt) delta hfr]
    rw [if_neg]
    rintro (hc | hc) <;> omega
  · with_unfolding_all decide

theorem c5_witness :
    parseTimestamp "2021-02-28T23:59:59Z" = some ⟨2021, 2, 28, 23, 59, 59⟩ ∧
    add_time_seconds "2021-02-28T23:59:59Z" (3 / 2) =
      some (formatTimestamp (fromEpochSeconds
        (toEpochSeconds ⟨2021, 2, 28, 23, 59, 59⟩ + ⌊(3 / 2 : ℚ)⌋))) ∧
    formatTimestamp (fromEpochSeconds
        (toEpochSeconds ⟨2021, 2, 28, 23, 59, 59⟩ + ⌊(3 / 2 : ℚ)⌋)) =
      "2021-03-01T00:00:00Z" :=
  ⟨by decide,
    c5_add_time_seconds_spec.1 "2021-02-28T23:59:59Z" ⟨2021, 2, 28, 23, 59, 59⟩ (3 / 2)
      (by decide) (by with_unfolding_all decide) (by with_unfolding_all decide)
      (by with_unfolding_all decide),
    by with_unfolding_all decide⟩
